import Mathlib

/-!
Verification development for the PDF-to-JSON math-problem converter
(`src/converter.py`, class `SinglePDFConverter`).

The Python code is shallowly embedded: pure text-processing methods become
Lean functions over `String` / `List Char`; Python `re` operations are
modelled by a small backtracking regex engine with Python semantics
(leftmost match, greedy/lazy quantifier order, case folding for
`re.IGNORECASE`, `.` matching newlines for `re.DOTALL`); Python `str`
whitespace methods are modelled over the ASCII whitespace class.  Geometry
on PDF pages (floats in the source) is idealized over `ℚ`.
-/

set_option maxRecDepth 8000
set_option maxHeartbeats 16000000

namespace PdfConverter

/-! ### Character helpers (ASCII model of Python str methods and re classes) -/

/-- Python whitespace class `\s` restricted to ASCII. -/
def pySpace (c : Char) : Bool :=
  c == ' ' || c == '\t' || c == '\n' || c == '\r' || c == '\x0b' || c == '\x0c'

/-- ASCII model of Python `str.lower` on one character (used for
`re.IGNORECASE` and `.lower()` calls). -/
def lowerChar (c : Char) : Char :=
  if 'A' ≤ c && c ≤ 'Z' then Char.ofNat (c.toNat + 32) else c

/-- Python `\w` restricted to ASCII: letters, digits and underscore. -/
def isWordChar (c : Char) : Bool :=
  ('a' ≤ c && c ≤ 'z') || ('A' ≤ c && c ≤ 'Z') || ('0' ≤ c && c ≤ '9') || c == '_'

/-- ASCII letter test, the `[a-zA-Z]` class. -/
def isAsciiAlpha (c : Char) : Bool :=
  ('a' ≤ c && c ≤ 'z') || ('A' ≤ c && c ≤ 'Z')

/-- ASCII lowercase test, the `[a-z]` class. -/
def isLowerAZ (c : Char) : Bool := 'a' ≤ c && c ≤ 'z'

/-- ASCII digit test, the `[0-9]` / `\d` class. -/
def isDigitC (c : Char) : Bool := '0' ≤ c && c ≤ '9'

/-! ### Regex abstract syntax

Just the constructs used by the converter's patterns: literals, the
classes `\d` `\s` `[a-z]`-style sets, `.` (with and without `re.DOTALL`),
concatenation, alternation, `?`, greedy `*`, and lazy `*?`.  `+` and
counted repetition are derived forms. -/

/-- Character classes appearing in the converter's regexes. -/
inductive CC where
  | digit
  | space
  | alphaAny
  | oneOf (l : List Char)
  | noneOf (l : List Char)
deriving Repr, DecidableEq

/-- Does class `c` accept character `a`? -/
def CC.test : CC → Char → Bool
  | .digit, a => isDigitC a
  | .space, a => pySpace a
  | .alphaAny, a => isAsciiAlpha a
  | .oneOf l, a => l.contains a
  | .noneOf l, a => !(l.contains a)

/-- Regex abstract syntax. -/
inductive RE where
  | eps
  | anyC
  | cls (c : CC)
  | lit (c : Char)
  | seq (a b : RE)
  | alt (a b : RE)
  | opt (a : RE)
  | starG (a : RE)
  | starL (a : RE)
deriving Repr, DecidableEq

/-- Size of a regex, used to compute a fuel bound for the matcher. -/
def RE.size : RE → Nat
  | .eps => 1
  | .anyC => 1
  | .cls _ => 1
  | .lit _ => 1
  | .seq a b => a.size + b.size + 1
  | .alt a b => a.size + b.size + 1
  | .opt a => a.size + 1
  | .starG a => a.size + 1
  | .starL a => a.size + 1

/-- Literal comparison under optional case folding (`re.IGNORECASE`). -/
def litEq (ci : Bool) (a b : Char) : Bool :=
  if ci then lowerChar a == lowerChar b else a == b

/-- Backtracking matcher in continuation-passing style, mirroring Python's
`re` backtracking order: alternation tries the left branch first, greedy
`*` tries one more iteration before stopping, lazy `*?` stops before
iterating.  The continuation receives the rest of the input after the
match; the first success in backtracking order is returned.  `fuel` only
bounds the recursion depth; iterations of `*` that consume no input are
cut off (no pattern of the converter has an empty-matching starred body).
-/
def reM : Nat → Bool → RE → List Char → (List Char → Option (List Char)) →
    Option (List Char)
  | 0, _, _, _, _ => none
  | f + 1, ci, r, s, k =>
    match r with
    | .eps => k s
    | .anyC =>
      match s with
      | [] => none
      | _ :: t => k t
    | .cls c =>
      match s with
      | [] => none
      | a :: t => if c.test a then k t else none
    | .lit a =>
      match s with
      | [] => none
      | b :: t => if litEq ci a b then k t else none
    | .seq r1 r2 => reM f ci r1 s (fun t => reM f ci r2 t k)
    | .alt r1 r2 =>
      match reM f ci r1 s k with
      | some out => some out
      | none => reM f ci r2 s k
    | .opt r1 =>
      match reM f ci r1 s k with
      | some out => some out
      | none => k s
    | .starG r1 =>
      match reM f ci r1 s
          (fun t => if t.length == s.length then none else reM f ci (.starG r1) t k) with
      | some out => some out
      | none => k s
    | .starL r1 =>
      match k s with
      | some out => some out
      | none =>
        reM f ci r1 s
          (fun t => if t.length == s.length then none else reM f ci (.starL r1) t k)

/-- Length of the match of `r` at the start of `s`, if any
(Python `re.match` at one position). -/
def reMatchLen (ci : Bool) (r : RE) (s : List Char) : Option Nat :=
  match reM ((s.length + 2) * (r.size + 2)) ci r s (fun t => some t) with
  | some rem => some (s.length - rem.length)
  | none => none

/-- Scan the suffixes of the input for the leftmost match; returns
(start index, match length).  This is Python `re.search`'s span. -/
def findMatchAux (ci : Bool) (r : RE) : List Char → Nat → Option (Nat × Nat)
  | s, i =>
    match reMatchLen ci r s with
    | some len => some (i, len)
    | none =>
      match s with
      | [] => none
      | _ :: t => findMatchAux ci r t (i + 1)

/-- Leftmost match of `r` in `s` as (start index, length), Python
`re.search`. -/
def findMatch (ci : Bool) (r : RE) (s : List Char) : Option (Nat × Nat) :=
  findMatchAux ci r s 0

/-- One pass of Python `re.sub(pattern, '', s)`: repeatedly delete the
leftmost match and continue after it (non-overlapping, left to right).
Matches of length zero stop the pass; no pattern used by the converter can
match the empty string. -/
def subAllAux : Nat → Bool → RE → List Char → List Char
  | 0, _, _, s => s
  | f + 1, ci, r, s =>
    match findMatch ci r s with
    | none => s
    | some (i, len) =>
      if len == 0 then s
      else s.take i ++ subAllAux f ci r (s.drop (i + len))

/-- Python `re.sub(pattern, '', s)`. -/
def subAll (ci : Bool) (r : RE) (s : List Char) : List Char :=
  subAllAux (s.length + 1) ci r s

/-- Apply a list of removal patterns in order, each over the whole current
text — the loop `for pattern in patterns: re.sub(pattern, '', text)`. -/
def subAllChain (ci : Bool) (rs : List RE) (s : List Char) : List Char :=
  rs.foldl (fun acc r => subAll ci r acc) s

/-- Python `re.sub(r'\s+', ' ', s)`: collapse every whitespace run to one
space. -/
def collapseWS : List Char → List Char
  | [] => []
  | c :: t =>
    if pySpace c then
      match t with
      | [] => [' ']
      | d :: t' =>
        if pySpace d then collapseWS (d :: t') else ' ' :: collapseWS (d :: t')
    else c :: collapseWS t

/-- Python `str.strip()` over the ASCII whitespace class. -/
def pyStrip (l : List Char) : List Char :=
  ((l.dropWhile pySpace).reverse.dropWhile pySpace).reverse

/-- Python `str.rstrip(chars)`. -/
def rstripChars (l : List Char) (cs : List Char) : List Char :=
  (l.reverse.dropWhile (fun c => cs.contains c)).reverse

/-- Insert `a` into an already sorted list, before the first element not
smaller than it, so that earlier-inserted equal elements stay behind it. -/
def insertStable {α : Type} (le : α → α → Bool) (a : α) : List α → List α
  | [] => [a]
  | b :: t => if le a b then a :: b :: t else b :: insertStable le a t

/-- Stable ascending sort (insertion sort), the model of Python's stable
`sorted` / `list.sort`.  Structurally recursive so that concrete instances
reduce inside the kernel. -/
def pySort {α : Type} (le : α → α → Bool) : List α → List α
  | [] => []
  | a :: t => insertStable le a (pySort le t)

/-- Case-insensitive substring test, Python `needle.lower() in hay.lower()`. -/
def containsSubCI (hay needle : String) : Bool :=
  let h := hay.data.map lowerChar
  let n := needle.data.map lowerChar
  (List.range (h.length + 1)).any (fun i => n.isPrefixOf (h.drop i))

/-- Plain substring test, Python `needle in hay`. -/
def containsSub (hay needle : String) : Bool :=
  (List.range (hay.data.length + 1)).any (fun i => needle.data.isPrefixOf (hay.data.drop i))

/-! ### Regex construction helpers -/

/-- Concatenation of a list of regexes. -/
def reCat (l : List RE) : RE := l.foldr RE.seq RE.eps

/-- A literal string as a regex. -/
def reLit (s : String) : RE := reCat (s.data.map RE.lit)

/-- Chained alternation. -/
def reAlt (l : List RE) : RE :=
  match l with
  | [] => RE.eps
  | [r] => r
  | r :: t => RE.alt r (reAlt t)

/-- Lazy `.*?` under `re.DOTALL` (dot matches newline too). -/
def dotAL : RE := RE.starL RE.anyC

/-- Lazy `.*?` without `re.DOTALL` (dot does not match newline). -/
def dotNL : RE := RE.starL (RE.cls (CC.noneOf ['\n']))

/-- `\s*` -/
def ws0 : RE := RE.starG (RE.cls CC.space)

/-- `\s+` -/
def ws1 : RE := RE.seq (RE.cls CC.space) ws0

/-- `\d+` -/
def d1 : RE := RE.seq (RE.cls CC.digit) (RE.starG (RE.cls CC.digit))

/-- `\d{4}` -/
def d4 : RE :=
  reCat [RE.cls CC.digit, RE.cls CC.digit, RE.cls CC.digit, RE.cls CC.digit]

/-- `[a-zA-Z]+` -/
def alpha1 : RE := RE.seq (RE.cls CC.alphaAny) (RE.starG (RE.cls CC.alphaAny))

/-! ### The boilerplate-removal patterns of `_filter_page_content`
(source lines 742–798), in source order.  These are applied with
`re.IGNORECASE | re.DOTALL`, so `.` is `dotAL` and matching is
case-insensitive. -/

/-- McGill header pattern
`\)\s*Winter\s+\d{4}\s+MATH\s+\d+\s+V\d+,\s+P\d+(?:\s+Question)?`. -/
def mcgillHeader1 : RE :=
  reCat [RE.lit ')', ws0, reLit ("Winter"), ws1, d4, ws1, reLit ("MATH"), ws1, d1,
    ws1, RE.lit 'V', d1, RE.lit ',', ws1, RE.lit 'P', d1,
    RE.opt (RE.seq ws1 (reLit ("Question")))]

/-- McGill header pattern without the leading parenthesis. -/
def mcgillHeader2 : RE :=
  reCat [reLit ("Winter"), ws1, d4, ws1, reLit ("MATH"), ws1, d1,
    ws1, RE.lit 'V', d1, RE.lit ',', ws1, RE.lit 'P', d1,
    RE.opt (RE.seq ws1 (reLit ("Question")))]

/-- The `patterns_to_remove` list of `_filter_page_content`. -/
def filterPatterns : List RE :=
  [ reCat [reLit ("Gstudocu"), dotAL, reLit ("Studocu"), dotAL, reLit ("university")],
    reCat [reLit ("Downloaded by"), dotAL, RE.lit '@', dotAL, reLit (".com")],
    reLit ("Scan to open on Studocu"),
    reCat [reLit ("Studocu is not sponsored"), dotAL, reLit ("university")],
    reCat [reLit ("Introduction to Calculus"), dotAL, reLit ("University of Pennsylvania")],
    reLit ("103finalfall 2014 withans"),
    reCat [reLit ("Page "), d1, reLit (" of "), d1],
    reCat [RE.lit '©', dotAL, reLit ("All rights reserved")],
    reLit ("Confidential"),
    reLit ("Draft"),
    reLit ("Final Exam"),
    reCat [reLit ("Name:"), dotAL],
    reCat [reLit ("Student ID:"), dotAL],
    reCat [reLit ("Date:"), dotAL],
    reCat [reLit ("Time:"), dotAL],
    reCat [reLit ("Instructions:"), dotAL],
    reCat [reLit ("Total Points:"), dotAL],
    reLit ("Show all work"),
    reLit ("No calculators allowed"),
    reLit ("Good luck"),
    mcgillHeader1,
    mcgillHeader2,
    reCat [reLit ("Course:"), ws0, reLit ("MATH"), ws0, d1, dotAL,
      reLit ("Page number:"), ws0, d1, ws0, reLit ("of"), ws0, d1],
    reCat [reLit ("INSTRUCTIONS"), ws0, RE.lit '-', ws0, reLit ("You have until"),
      dotAL, reLit ("enjoy the summer!")],
    reCat [reLit ("You have until"), dotAL, reLit ("submit it on myCourses"),
      dotAL, reLit ("No late submissions will be accepted")],
    reCat [reLit ("All solutions should be your own"), dotAL, reLit ("solve the problems")],
    reCat [reLit ("Show and justify each step"), dotAL, reLit ("simplify the answers")],
    reCat [reLit ("You may answer the questions directly"), dotAL, reLit ("single PDF file")],
    reLit ("Stay safe and enjoy the summer!"),
    reCat [reLit ("University of Pennsylvania"), dotAL, reLit ("Math 103"), dotAL,
      reLit ("Fall 2014")],
    reCat [reLit ("Name"), dotAL, reLit ("PRINT"), dotAL, reLit ("Professor"), dotAL,
      reLit ("Rimmer"), dotAL, reLit ("Wong"), dotAL, reLit ("Towsner")],
    reCat [reLit ("Penn ID"), dotAL, reLit ("Recitation Number"), dotAL,
      reLit ("Rec. Day"), dotAL, reLit ("Rec. Time")],
    reCat [reLit ("This exam has"), dotAL, reLit ("multiple choice questions"), dotAL,
      reLit ("open-ended questions")],
    reCat [reLit ("Each question is worth"), dotAL, reLit ("points")],
    reCat [reLit ("Partial credit will be given"), dotAL, reLit ("supporting work")],
    reCat [reLit ("correct answer with little or no supporting work"), dotAL,
      reLit ("little or no credit")],
    reCat [reLit ("Use the space provided"), dotAL, reLit ("scrap paper is provided")],
    reCat [reLit ("If you write on the back"), dotAL, reLit ("indicate this in some way")],
    reCat [reLit ("You have 120 minutes"), dotAL, reLit ("complete the exam")],
    reCat [reLit ("You are not allowed"), dotAL, reLit ("calculator"), dotAL,
      reLit ("electronic device")],
    reCat [reLit ("You are allowed to use"), dotAL, reLit ("handwritten notes")],
    reCat [reLit ("Please silence"), dotAL, reLit ("electronic devices")],
    reCat [reLit ("When you finish"), dotAL, reLit ("120 minutes has elapsed")],
    reCat [reLit ("When time is up"), dotAL, reLit ("collect your exam")],
    reCat [reLit ("Once you have completed"), dotAL, reLit ("academic integrity statement")],
    reCat [reLit ("Do NOT write in the grid"), dotAL, reLit ("grading purposes only")],
    reCat [reLit ("\\begin\x7btabular\x7d"), dotAL, reLit ("\\end\x7btabular\x7d")],
    reCat [reLit ("My signature below"), dotAL, reLit ("Academic Integrity"), dotAL,
      reLit ("examination paper")],
    reCat [reLit ("Name (printed)"), dotAL, reLit ("Score"), dotAL, reLit ("Signature"),
      dotAL, reLit ("Date")],
    reCat [reLit ("Problem"), dotAL, reLit ("Points"), dotAL, reLit ("Problem"), dotAL,
      reLit ("Points")],
    reCat [reLit ("\\hline"), dotAL, reLit ("\\hline")],
    reCat [reLit ("\\\\"), dotAL, reLit ("\\\\")] ]

/-- `_filter_page_content`: remove every boilerplate pattern in order, then
collapse whitespace runs to single spaces and strip.  (`page_num` is unused
by the source body as well.) -/
def filterPageContent (content : String) (_pageNum : Nat) : String :=
  String.mk (pyStrip (collapseWS (subAllChain true filterPatterns content.data)))

/-! ### `_clean_text` and `_html_escape_math_symbols` -/

/-- The two extra patterns `_clean_text` removes beyond the filter list. -/
def jeremyPatterns : List RE :=
  [ reLit ("jeremywu12345@gmail.com"),
    reLit ("jeremywu12345") ]

/-- The `metadata_patterns` list of `_clean_text` (source lines 1516–1574):
the filter list with the two `jeremywu12345` entries inserted after
`Good luck`. -/
def metadataPatterns : List RE :=
  filterPatterns.take 20 ++ jeremyPatterns ++ filterPatterns.drop 20

/-- The page-marker pattern `--- PAGE \d+ ---` removed first by
`_clean_text` (no flags, so case-sensitive). -/
def pageMarkerRE : RE := reCat [reLit ("--- PAGE "), d1, reLit (" ---")]

/-- `_html_escape_math_symbols`: replace `<` by `&lt;` and `>` by `&gt;`.
The source performs the two `str.replace` calls in sequence; since the
first introduces no `>` and the second no `<`, a single simultaneous pass
is equivalent. -/
def htmlEscapeChars : List Char → List Char
  | [] => []
  | c :: t =>
    if c == '<' then '&' :: 'l' :: 't' :: ';' :: htmlEscapeChars t
    else if c == '>' then '&' :: 'g' :: 't' :: ';' :: htmlEscapeChars t
    else c :: htmlEscapeChars t

/-- The final `re.sub(r'^\s*\d+\.\s*', '', text)` of `_clean_text`: without
`re.MULTILINE` the anchor `^` only matches at position 0, so this deletes a
leading "1. "-style marker if present. -/
def stripLeadingNum (l : List Char) : List Char :=
  match reMatchLen false (reCat [ws0, d1, RE.lit '.', ws0]) l with
  | some len => l.drop len
  | none => l

/-- `_clean_text`: page markers removed, HTML-escape `<`/`>`, metadata
pattern removal, whitespace collapse, leading problem-number strip, final
strip. -/
def cleanText (text : String) : String :=
  let t1 := subAll false pageMarkerRE text.data
  let t2 := htmlEscapeChars t1
  let t3 := subAllChain true metadataPatterns t2
  let t4 := collapseWS t3
  let t5 := stripLeadingNum t4
  String.mk (pyStrip t5)

/-! ### `_extract_orphaned_content` and `_clean_orphaned_content` -/

/-- Leftmost start of a match of `(?:^|\n)` followed by `body`, compiled
without `re.MULTILINE`: either position 0 (via `^`) or the position of a
newline whose successor suffix matches `body`.  The newline belongs to the
match, so it is the reported start. -/
def searchAnchoredNLAux (body : RE) : List Char → Nat → Option Nat
  | [], _ => none
  | c :: t, i =>
    if c == '\n' && (reMatchLen false body t).isSome then some i
    else searchAnchoredNLAux body t (i + 1)

/-- Search for `(?:^|\n)body` (no flags): try `^` at position 0, then scan
for a newline followed by `body`. -/
def searchAnchoredNL (body : RE) (s : List Char) : Option Nat :=
  if (reMatchLen false body s).isSome then some 0
  else searchAnchoredNLAux body s 0

/-- The position of the first problem marker used by
`_extract_orphaned_content`: the minimum over the match starts of
`(?:^|\n)\s*(\d+)\.\s`, `(?:^|\n)\s*Problem\s+(\d+)` and `(\d+)\.\s`,
defaulting to the content length when none matches. -/
def firstProblemPos (content : List Char) : Nat :=
  let p1 := searchAnchoredNL (reCat [ws0, d1, RE.lit '.', RE.cls CC.space]) content
  let p2 := searchAnchoredNL (reCat [ws0, reLit ("Problem"), ws1, d1]) content
  let p3 := (findMatch false (reCat [d1, RE.lit '.', RE.cls CC.space]) content).map
    (fun m => m.1)
  [p1, p2, p3].foldl
    (fun acc o =>
      match o with
      | some i => if i < acc then i else acc
      | none => acc)
    content.length

/-- The header patterns removed by `_clean_orphaned_content`
(`re.IGNORECASE`, no `DOTALL`; none of them contains a dot class). -/
def orphanHeaderPatterns : List RE :=
  [ reCat [reLit ("Stanford Math"), ws0, reLit ("Tournament"), ws0, reLit ("Calculus"),
      ws0, reLit ("April 13, 2024")],
    reCat [reLit ("Stanford Math"), ws0, reLit ("Tournament"), ws0, reLit ("Calculus")],
    reLit ("April 13, 2024"),
    reCat [ws0, reLit ("Calculus"), ws0] ]

/-- `_clean_orphaned_content`: remove the header patterns, collapse
whitespace, strip. -/
def cleanOrphanedContent (content : String) : String :=
  String.mk (pyStrip (collapseWS (subAllChain true orphanHeaderPatterns content.data)))

/-- `_extract_orphaned_content`: the text before the first problem marker,
cleaned; kept only when longer than 20 characters, otherwise `""`. -/
def extractOrphanedContent (content : String) (_pageNum : Nat) : String :=
  let cs := content.data
  let pos := firstProblemPos cs
  if 0 < pos then
    let orphaned := String.mk (pyStrip (cs.take pos))
    let cleaned := cleanOrphanedContent orphaned
    if 20 < cleaned.length then cleaned else ""
  else ""

/-- The orphan-recording step of `_parse_page_content` (source lines
584–590): only on pages after the first, and only when the extracted
orphan content is non-empty (Python truthiness of the string), is an entry
stored in `orphaned_content_by_page`. -/
def orphanRecordForPage (pageNum : Nat) (filteredContent : String) : Option String :=
  if 1 < pageNum then
    let orphaned := extractOrphanedContent filteredContent pageNum
    if orphaned == "" then none else some orphaned
  else none

/-! ### `_is_valid_problem_number` and `_is_valid_problem_sequence` -/

/-- `_is_valid_problem_number`: reject the explicit false-positive set
`{0, 100, 1000, 10000}`, then require `1 <= n <= 50`. -/
def isValidProblemNumber (n : Nat) : Bool :=
  if n == 0 || n == 100 || n == 1000 || n == 10000 then false
  else 1 ≤ n && n ≤ 50

/-- The consecutive gaps of the sorted problem numbers
(`problem_numbers[i] - problem_numbers[i-1]`). -/
def seqGaps (problemNumbers : List Nat) : List Int :=
  let s := pySort (fun a b => a ≤ b) problemNumbers
  (s.zip s.tail).map (fun p => (p.2 : Int) - (p.1 : Int))

/-- `_is_valid_problem_sequence` on the list of candidate problem numbers.
The float test `len(reasonable_gaps) >= len(gaps) * 0.7` is modelled as
`10 * reasonable >= 7 * gaps`; for the list lengths involved the rounding
of `0.7` never crosses an integer boundary, since the double nearest
`n * 0.7` is strictly below `7n/10` for every multiple of 10 and the two
sides otherwise differ by at least `1/10`. -/
def isValidProblemSequence (problemNumbers : List Nat) : Bool :=
  if problemNumbers.isEmpty then false
  else if problemNumbers.length == 1 then true
  else
    let gaps := seqGaps problemNumbers
    let reasonableGaps := gaps.filter (fun g => 1 ≤ g && g ≤ 3)
    let largeGaps := gaps.filter (fun g => 3 < g)
    if 7 * gaps.length ≤ 10 * reasonableGaps.length then true
    else if 1 < largeGaps.length || gaps.any (fun g => 10 < g) then false
    else true

/-! ### `_find_problem_images` (image-to-problem lookup at assembly time) -/

/-- One saved image record as passed to `_combine_page_results`:
filename, source page, and the problem association decided in stage 1
(`associated_problem`, nullable). -/
structure ImageRec where
  filename : String
  page : Nat
  associatedProblem : Option Nat
deriving Repr, DecidableEq

/-- `_find_problem_images`: an image is listed for `problemNum` when its
stored association equals `problemNum`, or — fallback — when it has no
association, its page is among this problem's pages, and that page occurs
exactly once in this problem's own page list (`page_problems = [p for p in
problem_pages if p == img.page]; len(page_problems) == 1`). -/
def findProblemImages (problemNum : Nat) (problemPages : List Nat)
    (allImages : List ImageRec) : List String :=
  allImages.foldl
    (fun acc img =>
      if img.associatedProblem == some problemNum then acc ++ [img.filename]
      else if img.associatedProblem == none && problemPages.contains img.page then
        if (problemPages.filter (fun p => p == img.page)).length == 1 then
          acc ++ [img.filename]
        else acc
      else acc)
    []

/-! ### `_associate_orphaned_content_with_problems` -/

/-- Python `min` over a list of page numbers; the source only evaluates it
on non-empty part lists (a problem number exists in the dict only once a
part has been appended). -/
def minD : List Nat → Nat
  | [] => 0
  | h :: t => t.foldl Nat.min h

/-- The selection loop of `_associate_orphaned_content_with_problems`:
walk the page-sorted `(number, first_page)` list, remembering the latest
number whose first page precedes the orphan's page, stopping at the first
entry at or past it. -/
def lastProblemBefore : List (Nat × Nat) → Nat → Option Nat
  | [], _ => none
  | e :: t, p =>
    if e.2 < p then some ((lastProblemBefore t p).getD e.1) else none

/-- `_associate_orphaned_content_with_problems`, reduced to the attachment
decision: for each orphan page `p`, the problem number (if any) receiving
the orphan content.  `problemsByNumber` maps each problem number to the
pages of its recorded parts, in dict insertion order;
`orphanedContentByPage` lists the recorded orphans.  The final
`if last_problem_num:` guard is Python truthiness, so a (never occurring)
problem number 0 would also be dropped. -/
def associateOrphanTargets (problemsByNumber : List (Nat × List Nat))
    (orphanedContentByPage : List (Nat × String)) : List (Nat × Option Nat) :=
  let allProblemsWithPages := problemsByNumber.map (fun e => (e.1, minD e.2))
  let sortedPP := pySort (fun a b => a.2 ≤ b.2) allProblemsWithPages
  orphanedContentByPage.map
    (fun o =>
      (o.1,
        match lastProblemBefore sortedPP o.1 with
        | some n => if n == 0 then none else some n
        | none => none))

/-! ### `_generate_problem_based_filename` and the filename convention
decoder inside `_determine_image_subproblem_association` -/

/-- `_generate_problem_based_filename`: `p{problem}_{img}.png`,
`p{problem}_{img}_{subproblem}.png` when a subproblem key is known, and
`page_{page}_img_{img}.png` as the unassociated fallback. -/
def generateProblemBasedFilename (associatedProblem : Option Nat) (imgNum : Nat)
    (pageNum : Nat) (subproblem : Option Char) : String :=
  match associatedProblem with
  | some p =>
    match subproblem with
    | some sp => "p" ++ toString p ++ "_" ++ toString imgNum ++ "_" ++ toString sp ++ ".png"
    | none => "p" ++ toString p ++ "_" ++ toString imgNum ++ ".png"
  | none => "page_" ++ toString pageNum ++ "_img_" ++ toString imgNum ++ ".png"

/-- Does `p\d+_([a-z])_\d+\.png` match at the head of this suffix?  If so,
return the captured letter.  Backtracking cannot help the `\d+` groups
here since a shorter digit run is followed by a digit, not `_` or `.`. -/
def filenameKeyHere (s : List Char) : Option Char :=
  match s with
  | 'p' :: rest =>
    let ds := rest.takeWhile isDigitC
    if ds.isEmpty then none
    else
      match rest.drop ds.length with
      | '_' :: c :: '_' :: r2 =>
        if isLowerAZ c then
          let ds2 := r2.takeWhile isDigitC
          if ds2.isEmpty then none
          else
            match r2.drop ds2.length with
            | '.' :: 'p' :: 'n' :: 'g' :: _ => some c
            | _ => none
        else none
      | _ => none
  | _ => none

/-- `re.search(r'p\d+_([a-z])_\d+\.png', filename)`, returning the
captured subproblem letter of the leftmost match. -/
def filenameSubproblemKeyAux : List Char → Option Char
  | [] => none
  | s@(_ :: t) =>
    match filenameKeyHere s with
    | some c => some c
    | none => filenameSubproblemKeyAux t

/-- The filename-convention decoder of
`_determine_image_subproblem_association` (method 1). -/
def filenameSubproblemKey (filename : String) : Option Char :=
  filenameSubproblemKeyAux filename.data

/-! ### `_is_header_image` geometry (floats idealized over `ℚ`) -/

/-- One placement rectangle of an image on a page, PyMuPDF convention:
`y0` is the top edge, width `x1 - x0`, height `y1 - y0`. -/
structure Rect where
  x0 : ℚ
  y0 : ℚ
  x1 : ℚ
  y1 : ℚ
deriving DecidableEq

/-- The geometric header test of `_is_header_image` for one placement
rectangle.  First branch: top 10% of the page AND height under 8% of page
height AND center in the right half.  Second branch: top region AND aspect
ratio strictly between 2 and 4 AND height < 40 AND width < 120 AND right
side. -/
def isHeaderRect (pageWidth pageHeight : ℚ) (r : Rect) : Bool :=
  let imgTop := r.y0
  let imgHeight := r.y1 - r.y0
  let imgWidth := r.x1 - r.x0
  let imgCenterX := (r.x0 + r.x1) / 2
  let isTopRegion := imgTop < pageHeight * (10 / 100)
  let isSmallHeight := imgHeight < pageHeight * (8 / 100)
  let isRightSide := pageWidth * (5 / 10) < imgCenterX
  if isTopRegion && isSmallHeight && isRightSide then true
  else
    let aspectRatio := if 0 < imgHeight then imgWidth / imgHeight else 0
    let isRectangular := 2 < aspectRatio && aspectRatio < 4
    let isVerySmall := imgHeight < 40 && imgWidth < 120
    if isTopRegion && isRectangular && isVerySmall && isRightSide then true
    else false

/-- `_is_header_image` over all placement rectangles of the image:
the loop returns true as soon as one rectangle qualifies, false
otherwise. -/
def isHeaderImage (pageWidth pageHeight : ℚ) (rects : List Rect) : Bool :=
  rects.any (isHeaderRect pageWidth pageHeight)

/-! ### Word-boundary searches

The patterns `\bWord...` cannot be expressed by the suffix matcher alone:
`\b` needs the character before the match position.  The scanners below
carry it along.  All the bounded words below start and end with word
characters, so the boundary tests reduce to the neighbours being
non-word. -/

/-- Match a literal word case-insensitively at the head of the input,
returning the rest. -/
def matchWordCI : List Char → List Char → Option (List Char)
  | [], s => some s
  | _ :: _, [] => none
  | w :: wt, c :: ct => if litEq true w c then matchWordCI wt ct else none

/-- Search for `\b(w1|w2|...)\b` under `re.IGNORECASE`: some position has
a non-word (or absent) left neighbour, matches one of the words, and is
followed by a non-word character or the end. -/
def searchWordsBoundedAux (words : List String) : List Char → Option Char → Bool
  | s, prev =>
    let bOk := match prev with
      | none => true
      | some c => !(isWordChar c)
    if bOk && words.any (fun w =>
        match matchWordCI w.data s with
        | some rest =>
          match rest with
          | [] => true
          | c :: _ => !(isWordChar c)
        | none => false) then true
    else
      match s with
      | [] => false
      | c :: t => searchWordsBoundedAux words t (some c)

/-- `re.search(r'\b(w1|w2|...)\b', s, re.IGNORECASE)` as a boolean. -/
def boundWordsCI (words : List String) (s : String) : Bool :=
  searchWordsBoundedAux words s.data none

/-- Search for `\bWord<tail>` under `re.IGNORECASE`, returning the span
(start, end) of the leftmost match. -/
def searchWBAux (word : String) (tl : RE) : List Char → Nat → Option Char →
    Option (Nat × Nat)
  | s, i, prev =>
    let bOk := match prev with
      | none => true
      | some c => !(isWordChar c)
    let here :=
      if bOk then
        match matchWordCI word.data s with
        | some rest =>
          match reMatchLen true tl rest with
          | some tlen => some (i, i + word.length + tlen)
          | none => none
        | none => none
      else none
    match here with
    | some r => some r
    | none =>
      match s with
      | [] => none
      | c :: t => searchWBAux word tl t (i + 1) (some c)

/-! ### `_extract_solution` -/

/-- The five solution-marker patterns of `_extract_solution`, in source
order: `\bSolution[:\.]\s*`, `\bAnswer[:\.]\s*`, `\bSol[:\.]\s*`,
`\bSolution\s*:`, `\bAnswer\s*:`. -/
def solutionPatterns : List (String × RE) :=
  [ ("Solution", RE.seq (RE.cls (CC.oneOf [':', '.'])) ws0),
    ("Answer", RE.seq (RE.cls (CC.oneOf [':', '.'])) ws0),
    ("Sol", RE.seq (RE.cls (CC.oneOf [':', '.'])) ws0),
    ("Solution", RE.seq ws0 (RE.lit ':')),
    ("Answer", RE.seq ws0 (RE.lit ':')) ]

/-- `_extract_solution`: split at the earliest solution marker (ties by
pattern order), right-strip the statement of spaces, periods and colons
(preserving question marks), and return the trailing solution text when
non-empty. -/
def extractSolution (content : String) : String × Option String :=
  let cs := content.data
  let best := solutionPatterns.foldl
    (fun acc pr =>
      match searchWBAux pr.1 pr.2 cs 0 none with
      | some m =>
        match acc with
        | none => some m
        | some b => if m.1 < b.1 then some m else some b
      | none => acc)
    (none : Option (Nat × Nat))
  match best with
  | none => (content, none)
  | some (st, en) =>
    let problemText := rstripChars (pyStrip (cs.take st)) [' ', '.', ':']
    let solutionText := pyStrip (cs.drop en)
    if solutionText.isEmpty then (String.mk problemText, none)
    else (String.mk problemText, some (String.mk solutionText))

/-! ### Subproblem data model and `_is_valid_subproblem_content` -/

/-- One accepted subproblem marker, the dict built by the marker-scanning
phase of `_extract_subproblems`: lowercased key, span of the marker text,
matched text and originating pattern name.  Roman-numeral keys of length
greater than one would make the source's `ord(k)` raise in
`_is_multiple_choice_sequence`; the claims here only concern single-letter
keys, so the key is a `Char`. -/
structure SubMarker where
  key : Char
  start : Nat
  stop : Nat
  markerText : String
  patternName : String
deriving Repr, DecidableEq

/-- The emitted solution object `{"text": ..., "images": [...]}`. -/
structure SolutionRec where
  text : Option String
  images : List String
deriving Repr, DecidableEq

/-- The emitted subproblem object. -/
structure SubproblemRec where
  problemText : String
  correctAnswer : Option String
  solution : Option SolutionRec
  images : List String
deriving Repr, DecidableEq

/-- `_clean_subproblem_content`: remove the two McGill header patterns
(case-insensitively) and strip. -/
def cleanSubproblemContent (content : String) : String :=
  String.mk (pyStrip (subAllChain true [mcgillHeader1, mcgillHeader2] content.data))

/-- The word-bounded alternation heading the `math_indicators` list of
`_is_valid_subproblem_content`. -/
def subproblemMathWords : List String :=
  ["derivative", "integral", "limit", "function", "equation", "solve", "find",
   "calculate", "compute", "evaluate"]

/-- The characters of the class `[a-zA-Z0-9+\-*/()]`. -/
def exprChars : List Char :=
  (List.range 26).map (fun i => Char.ofNat (97 + i)) ++
  (List.range 26).map (fun i => Char.ofNat (65 + i)) ++
  (List.range 10).map (fun i => Char.ofNat (48 + i)) ++
  ['+', '-', '*', '/', '(', ')']

/-- The regex entries of the `math_indicators` list of
`_is_valid_subproblem_content` after the word-bounded alternation, in
source order (`re.IGNORECASE`, no `DOTALL`). -/
def subproblemMathIndicators : List RE :=
  [ reCat [RE.cls CC.alphaAny, RE.lit '(', RE.cls CC.alphaAny, RE.lit ')'],
    reCat [d1, ws0, RE.cls (CC.oneOf ['+', '-', '*', '/']), ws0, d1],
    reCat [RE.cls CC.alphaAny, ws0, RE.lit '=', ws0,
      RE.seq (RE.cls (CC.oneOf exprChars)) (RE.starG (RE.cls (CC.oneOf exprChars)))],
    reCat [RE.cls CC.alphaAny, RE.lit '^', d1],
    reCat [reLit ("\\frac\x7b"), dotNL, reLit ("\x7d\x7b"), dotNL, reLit ("\x7d")],
    reCat [reLit ("\\sqrt\x7b"), dotNL, reLit ("\x7d")],
    reLit ("\\int"),
    reLit ("\\lim"),
    reAlt [reLit ("\\arcsin"), reLit ("\\arccos"), reLit ("\\arctan")],
    reAlt [reLit ("\\cosh"), reLit ("\\sinh"), reLit ("\\tanh")],
    reAlt [reLit ("\\cos"), reLit ("\\sin"), reLit ("\\tan")],
    reAlt [reLit ("\\log"), reLit ("\\ln"), reLit ("\\exp")],
    reCat [RE.lit '\\', alpha1, ws0, RE.lit '(',
      RE.starG (RE.cls (CC.noneOf [')'])), RE.lit ')'] ]

/-- The `problem_keywords` list shared by the content validators. -/
def problemKeywords : List String :=
  ["find", "solve", "calculate", "compute", "determine", "evaluate",
   "prove", "show", "derive", "integrate", "differentiate"]

/-- `_is_valid_subproblem_content`: clean, require at least 3 characters,
then accept on any math indicator, any problem keyword, LaTeX inline
delimiters, or — very leniently — any ASCII letter. -/
def isValidSubproblemContent (content : String) : Bool :=
  let cleaned := cleanSubproblemContent content
  if (pyStrip cleaned.data).length < 3 then false
  else if boundWordsCI subproblemMathWords cleaned then true
  else if subproblemMathIndicators.any
      (fun r => (findMatch true r cleaned.data).isSome) then true
  else if problemKeywords.any (fun k => containsSubCI cleaned k) then true
  else if containsSub cleaned ("\\(") && containsSub cleaned ("\\)") then true
  else if cleaned.data.any isAsciiAlpha && 3 ≤ (pyStrip cleaned.data).length then true
  else false

/-! ### `_is_multiple_choice_sequence` and `_extract_subproblems` -/

/-- The letter-distance span used by the second branch of
`_is_multiple_choice_sequence`: sort `ord(k) - ord('a')` and subtract the
first from the last. -/
def keySpan (keys : List Char) : Int :=
  let nums := pySort (fun a b => a ≤ b) (keys.map (fun k => (k.toNat : Int) - 97))
  match nums.head?, nums.getLast? with
  | some f, some l => l - f
  | _, _ => 0

/-- `_is_multiple_choice_sequence`: fewer than 4 markers is never multiple
choice; exactly the alphabet run `a, b, c, ...` is; otherwise 4 or more
markers whose letter span is at least 3 are. -/
def isMultipleChoiceSequence (markers : List SubMarker) : Bool :=
  if markers.length < 4 then false
  else
    let keys := markers.map (fun m => m.key)
    let expected := (List.range keys.length).map (fun i => Char.ofNat (97 + i))
    if keys == expected then true
    else if 4 ≤ keys.length then
      if 3 ≤ keySpan keys && 4 ≤ keys.length then true else false
    else false

/-- `re.sub(r'\n\s*$', '', s)` (no `MULTILINE`): delete from the first
newline that is followed only by whitespace, to the end. -/
def stripTrailingNLRun (l : List Char) : List Char :=
  let wsLen := (l.reverse.takeWhile pySpace).length
  let cut := l.length - wsLen
  let pre := l.take cut
  let suffix := l.drop cut
  match suffix.findIdx? (fun c => c == '\n') with
  | some i => pre ++ suffix.take i
  | none => l

/-- Python dict assignment `d[k] = v`: replace in place if the key exists,
else append (insertion order preserved). -/
def dictInsert (l : List (Char × SubproblemRec)) (k : Char) (v : SubproblemRec) :
    List (Char × SubproblemRec) :=
  if l.any (fun e => e.1 == k) then l.map (fun e => if e.1 == k then (k, v) else e)
  else l ++ [(k, v)]

/-- Build the emitted subproblem record from a statement/solution split. -/
def mkSubproblemRec (problemText : String) (sol : Option String) : SubproblemRec :=
  { problemText := cleanText problemText
    correctAnswer := none
    solution := sol.map (fun s => { text := some (cleanText s), images := [] })
    images := [] }

/-- The span-slicing loop of `_extract_subproblems` (source lines
1386–1429): each marker's content runs from after its marker text to the
next marker's start (or the end), is stripped, validated leniently,
cleaned, split at a solution marker and stored under the marker's key. -/
def buildSubproblems (content : List Char) :
    List SubMarker → List (Char × SubproblemRec) → List (Char × SubproblemRec)
  | [], acc => acc
  | m :: rest, acc =>
    let endPos :=
      match rest with
      | [] => content.length
      | m2 :: _ => m2.start
    let raw := (content.drop m.stop).take (endPos - m.stop)
    let s1 := pyStrip raw
    let s2 := pyStrip (stripTrailingNLRun s1)
    let acc' :=
      if isValidSubproblemContent (String.mk s2) then
        let cleaned := cleanSubproblemContent (String.mk s2)
        let pr := extractSolution cleaned
        dictInsert acc m.key (mkSubproblemRec pr.1 pr.2)
      else acc
    buildSubproblems content rest acc'

/-- The `_indicates_subproblems_expected` cue list. -/
def subproblemExpectedIndicators : List String :=
  ["find the following", "determine the following", "calculate the following",
   "evaluate the following", "compute the following", "solve the following",
   "show the following", "prove the following"]

/-- `_indicates_subproblems_expected`. -/
def indicatesSubproblemsExpected (content : String) : Bool :=
  subproblemExpectedIndicators.any
    (fun p => (findMatch true (reLit p) content.data).isSome)

/-- Python `re.split(r'[.!?]\s+', s)` (no flags): segments between the
non-overlapping leftmost separator matches; separators are discarded. -/
def splitOnREAux : Nat → RE → List Char → List (List Char)
  | 0, _, s => [s]
  | f + 1, r, s =>
    match findMatch false r s with
    | none => [s]
    | some (i, len) =>
      if len == 0 then [s]
      else s.take i :: splitOnREAux f r (s.drop (i + len))

/-- `re.split` wrapper. -/
def splitOnRE (r : RE) (s : List Char) : List (List Char) :=
  splitOnREAux (s.length + 1) r s

/-- The sentence separator `[.!?]\s+` of
`_extract_text_based_subproblems`. -/
def sentenceSplitRE : RE := RE.seq (RE.cls (CC.oneOf ['.', '!', '?'])) ws1

/-- Case-insensitive prefix test, modelling `re.search(r'^...', s,
re.IGNORECASE)` for the anchored skip patterns. -/
def ciPrefix (pre s : String) : Bool :=
  (pre.data.map lowerChar).isPrefixOf (s.data.map lowerChar)

/-- The sentence-skipping test of `_extract_text_based_subproblems`:
anchored `^Given:`, `^Note:`, `^Hint:`, plus the unanchored
`find the following` and `marks\)` cues. -/
def shouldSkipSentence (sentence : String) : Bool :=
  ciPrefix ("Given:") sentence || ciPrefix ("Note:") sentence ||
  ciPrefix ("Hint:") sentence ||
  containsSubCI sentence ("find the following") || containsSubCI sentence ("marks)")

/-- The sentence loop of `_extract_text_based_subproblems`: skip short or
flagged sentences, key accepted ones alphabetically from `a`, and stop
after the sixth. -/
def extractTextBasedSubproblemsAux :
    List (List Char) → Nat → List (Char × SubproblemRec) → List (Char × SubproblemRec)
  | [], _, acc => acc
  | sent :: rest, count, acc =>
    let sentence := pyStrip sent
    if sentence.length < 10 then extractTextBasedSubproblemsAux rest count acc
    else if shouldSkipSentence (String.mk sentence) then
      extractTextBasedSubproblemsAux rest count acc
    else if isValidSubproblemContent (String.mk sentence) then
      let key := Char.ofNat (97 + count)
      let cleaned := cleanSubproblemContent (String.mk sentence)
      let pr := extractSolution cleaned
      let acc' := dictInsert acc key (mkSubproblemRec pr.1 pr.2)
      if 6 ≤ count + 1 then acc'
      else extractTextBasedSubproblemsAux rest (count + 1) acc'
    else extractTextBasedSubproblemsAux rest count acc

/-- `_extract_text_based_subproblems`. -/
def extractTextBasedSubproblems (content : String) : List (Char × SubproblemRec) :=
  extractTextBasedSubproblemsAux (splitOnRE sentenceSplitRE content.data) 0 []

/-- The decision phase of `_extract_subproblems`, starting from the
accepted markers (source lines 1369–1430): sort by position, drop
everything when the run has the multiple-choice signature, otherwise fall
back to text-based extraction when no markers exist but subproblems are
announced, else slice the content between markers. -/
def extractSubproblemsFromMarkers (content : String) (markers : List SubMarker) :
    List (Char × SubproblemRec) :=
  let sorted := pySort (fun a b => a.start ≤ b.start) markers
  if isMultipleChoiceSequence sorted then []
  else
    let textSubs :=
      if sorted.isEmpty && indicatesSubproblemsExpected content then
        extractTextBasedSubproblems content
      else []
    if !textSubs.isEmpty then textSubs
    else buildSubproblems content.data sorted []

/-! ### `_determine_image_subproblem_association` -/

/-- The visual-reference vocabulary of
`_determine_image_subproblem_association`. -/
def imageKeywords : List String :=
  ["shaded region", "graph", "figure", "diagram", "chart", "below", "above",
   "shown", "illustrated", "picture", "image", "plot", "curve", "line"]

/-- `_determine_image_subproblem_association`: filename convention first
(`p\d+_([a-z])_\d+\.png` with the captured key present among the
subproblems), then the subproblem with strictly the most visual-reference
keywords, then — when the main statement is blank and there is exactly one
subproblem — that subproblem; otherwise no subproblem. -/
def determineImageSubproblemAssociation (imageFilename : String)
    (mainProblemText : String) (subproblems : List (Char × SubproblemRec)) :
    Option Char :=
  let m1 :=
    match filenameSubproblemKey imageFilename with
    | some k => if subproblems.any (fun e => e.1 == k) then some k else none
    | none => none
  match m1 with
  | some k => some k
  | none =>
    let best := subproblems.foldl
      (fun acc e =>
        let cnt := (imageKeywords.filter
          (fun kw => containsSubCI e.2.problemText kw)).length
        if acc.2 < cnt then (some e.1, cnt) else acc)
      ((none : Option Char), 0)
    if (pyStrip mainProblemText.data).isEmpty && subproblems.length == 1 then
      (subproblems.map (fun e => e.1)).head?
    else if 0 < best.2 then best.1
    else none

/-! ### Auxiliary definitions used by the claim statements -/

/-- Invariant of `collapseWS` output: every whitespace character is a
plain space and no two adjacent characters are both whitespace. -/
def Collapsed (l : List Char) : Prop :=
  (∀ c ∈ l, pySpace c = true → c = ' ') ∧
  List.Chain' (fun a b => ¬(pySpace a = true ∧ pySpace b = true)) l

/-- No removal pattern of the page filter matches anywhere in `s`. -/
def noFilterPatternMatches (s : String) : Bool :=
  filterPatterns.all (fun r => (findMatch true r s.data).isNone)

/-- The acceptance condition `_is_valid_problem_sequence` actually
implements, stated as the amended claim: a non-empty candidate set is
accepted iff it is a singleton, or at least 70% of the sorted consecutive
gaps lie in [1,3], or otherwise at most one gap exceeds 3 and no gap
exceeds 10. -/
def specSequenceAccepted (nums : List Nat) : Prop :=
  nums ≠ [] ∧
  (nums.length = 1 ∨
    7 * (seqGaps nums).length ≤
      10 * ((seqGaps nums).filter (fun g => 1 ≤ g && g ≤ 3)).length ∨
    (((seqGaps nums).filter (fun g => 3 < g)).length ≤ 1 ∧
      ∀ g ∈ seqGaps nums, g ≤ 10))

/-- The alphabet run `a, b, c, ...` of a given length. -/
def alphaRun (n : Nat) : List Char :=
  (List.range n).map (fun i => Char.ofNat (97 + i))

/-- The keys of the markers in position order, as
`_extract_subproblems` sees them. -/
def sortedKeys (markers : List SubMarker) : List Char :=
  (pySort (fun a b => a.start ≤ b.start) markers).map (fun m => m.key)

/-! ## Generic lemmas about the text pipeline

Empty-replacement substitution, whitespace collapsing and stripping never
invent characters (other than the single space); these lemmas drive the
HTML-escaping invariant. -/

theorem mem_subAllAux {c : Char} :
    ∀ (f : Nat) (ci : Bool) (r : RE) (s : List Char), c ∈ subAllAux f ci r s → c ∈ s := by
  intro f
  induction f with
  | zero => intro ci r s h; simpa [subAllAux] using h
  | succ f ih =>
    intro ci r s h
    rw [subAllAux] at h
    cases hfm : findMatch ci r s with
    | none => rw [hfm] at h; exact h
    | some m =>
      rw [hfm] at h
      by_cases hl : m.2 == 0
      · simp only [hl, if_true] at h
        exact h
      · simp only [hl, Bool.false_eq_true, if_false] at h
        rcases List.mem_append.mp h with h1 | h2
        · exact List.mem_of_mem_take h1
        · exact List.mem_of_mem_drop (ih ci r _ h2)

theorem mem_subAll {c : Char} {ci : Bool} {r : RE} {s : List Char}
    (h : c ∈ subAll ci r s) : c ∈ s :=
  mem_subAllAux _ ci r s h

theorem mem_subAllChain {c : Char} :
    ∀ (rs : List RE) (ci : Bool) (s : List Char), c ∈ subAllChain ci rs s → c ∈ s := by
  intro rs
  induction rs with
  | nil => intro ci s h; simpa [subAllChain] using h
  | cons r t ih =>
    intro ci s h
    have h' : c ∈ subAllChain ci t (subAll ci r s) := by
      simpa [subAllChain] using h
    exact mem_subAll (ih ci (subAll ci r s) h')

theorem mem_collapseWS {c : Char} :
    ∀ (l : List Char), c ∈ collapseWS l → c ∈ l ∨ c = ' ' := by
  intro l
  induction l with
  | nil => intro h; simp [collapseWS] at h
  | cons a t ih =>
    intro h
    cases t with
    | nil =>
      by_cases hs : pySpace a
      · simp only [collapseWS, hs, if_true] at h
        exact Or.inr (by simpa using h)
      · simp only [collapseWS, hs, Bool.false_eq_true, if_false] at h
        rcases List.mem_cons.mp h with h1 | h1
        · exact Or.inl (by simp [h1])
        · simp [collapseWS] at h1
    | cons d t' =>
      by_cases hs : pySpace a
      · by_cases hd : pySpace d
        · simp only [collapseWS, hs, hd, if_true] at h
          rcases ih h with h1 | h1
          · exact Or.inl (List.mem_cons_of_mem _ h1)
          · exact Or.inr h1
        · simp only [collapseWS, hs, hd, Bool.false_eq_true, if_true, if_false] at h
          rcases List.mem_cons.mp h with h1 | h1
          · exact Or.inr h1
          · rcases ih h1 with h2 | h2
            · exact Or.inl (List.mem_cons_of_mem _ h2)
            · exact Or.inr h2
      · simp only [collapseWS, hs, Bool.false_eq_true, if_false] at h
        rcases List.mem_cons.mp h with h1 | h1
        · exact Or.inl (by simp [h1])
        · rcases ih h1 with h2 | h2
          · exact Or.inl (List.mem_cons_of_mem _ h2)
          · exact Or.inr h2

theorem mem_pyStrip {c : Char} {l : List Char} (h : c ∈ pyStrip l) : c ∈ l := by
  unfold pyStrip at h
  have h1 := List.mem_reverse.mp h
  have h2 := (List.dropWhile_suffix pySpace).subset h1
  have h3 := List.mem_reverse.mp h2
  exact (List.dropWhile_suffix pySpace).subset h3

theorem mem_stripLeadingNum {c : Char} {l : List Char}
    (h : c ∈ stripLeadingNum l) : c ∈ l := by
  unfold stripLeadingNum at h
  cases hm : reMatchLen false (reCat [ws0, d1, RE.lit '.', ws0]) l with
  | none => rw [hm] at h; exact h
  | some len => rw [hm] at h; exact List.mem_of_mem_drop h

theorem htmlEscapeChars_no_angle :
    ∀ (l : List Char), '<' ∉ htmlEscapeChars l ∧ '>' ∉ htmlEscapeChars l := by
  intro l
  induction l with
  | nil => simp [htmlEscapeChars]
  | cons a t ih =>
    by_cases h1 : a == '<'
    · simp only [htmlEscapeChars, h1, if_true]
      refine ⟨?_, ?_⟩ <;> intro hmem <;>
        rcases List.mem_cons.mp hmem with h | h <;>
        first
          | exact absurd h (by decide)
          | (rcases List.mem_cons.mp h with h | h <;>
             first
               | exact absurd h (by decide)
               | (rcases List.mem_cons.mp h with h | h <;>
                  first
                    | exact absurd h (by decide)
                    | (rcases List.mem_cons.mp h with h | h
                       · exact absurd h (by decide)
                       · first
                           | exact ih.1 h
                           | exact ih.2 h)))
    · by_cases h2 : a == '>'
      · simp only [htmlEscapeChars, h1, h2, Bool.false_eq_true, if_false, if_true]
        refine ⟨?_, ?_⟩ <;> intro hmem <;>
          rcases List.mem_cons.mp hmem with h | h <;>
          first
            | exact absurd h (by decide)
            | (rcases List.mem_cons.mp h with h | h <;>
               first
                 | exact absurd h (by decide)
                 | (rcases List.mem_cons.mp h with h | h <;>
                    first
                      | exact absurd h (by decide)
                      | (rcases List.mem_cons.mp h with h | h
                         · exact absurd h (by decide)
                         · first
                             | exact ih.1 h
                             | exact ih.2 h)))
      · simp only [htmlEscapeChars, h1, h2, Bool.false_eq_true, if_false]
        constructor <;> intro hmem <;> rcases List.mem_cons.mp hmem with h | h
        · exact h1 (by simp [h.symm])
        · exact ih.1 h
        · exact h2 (by simp [h.symm])
        · exact ih.2 h

/-! ## Idempotence infrastructure for the whitespace normalizer -/

theorem collapseWS_cons_notspace {d : Char} {t : List Char}
    (hd : pySpace d = false) : collapseWS (d :: t) = d :: collapseWS t := by
  cases t with
  | nil => simp [collapseWS, hd]
  | cons e t' => simp [collapseWS, hd]

theorem collapsed_collapseWS : ∀ (l : List Char), Collapsed (collapseWS l) := by
  intro l
  induction l with
  | nil => exact ⟨by simp [collapseWS], by simp [collapseWS]⟩
  | cons a t ih =>
    cases t with
    | nil =>
      by_cases hs : pySpace a
      · simp only [collapseWS, hs, if_true]
        exact ⟨by intro c hc _; simpa using hc, by simp⟩
      · simp only [collapseWS, hs, Bool.false_eq_true, if_false]
        refine ⟨?_, by simp [collapseWS]⟩
        intro c hc hsp
        rcases List.mem_cons.mp hc with h | h
        · rw [h] at hsp
          simp [hs] at hsp
        · simp [collapseWS] at h
    | cons d t' =>
      by_cases hs : pySpace a
      · by_cases hd : pySpace d
        · simpa [collapseWS, hs, hd] using ih
        · simp only [collapseWS, hs, hd, Bool.false_eq_true, if_true, if_false]
          rw [collapseWS_cons_notspace (by simpa using hd)] at ih ⊢
          refine ⟨?_, ?_⟩
          · intro c hc hsp
            rcases List.mem_cons.mp hc with h | h
            · exact h
            · exact ih.1 c h hsp
          · refine (List.chain'_cons.mpr ⟨?_, ih.2⟩)
            intro hpair
            exact hd hpair.2
      · simp only [collapseWS, hs, Bool.false_eq_true, if_false]
        refine ⟨?_, ?_⟩
        · intro c hc hsp
          rcases List.mem_cons.mp hc with h | h
          · rw [h] at hsp
            simp [hs] at hsp
          · exact ih.1 c h hsp
        · cases hcw : collapseWS (d :: t') with
          | nil => simp
          | cons e rest =>
            refine List.chain'_cons.mpr ⟨?_, hcw ▸ ih.2⟩
            intro hpair
            exact hs hpair.1

theorem collapseWS_of_collapsed : ∀ (l : List Char), Collapsed l → collapseWS l = l := by
  intro l
  induction l with
  | nil => intro _; rfl
  | cons a t ih =>
    intro hc
    cases t with
    | nil =>
      by_cases hs : pySpace a
      · have ha : a = ' ' := hc.1 a (by simp) hs
        simp [collapseWS, hs, ha]
      · simp [collapseWS, hs]
    | cons d t' =>
      have htail : Collapsed (d :: t') := by
        refine ⟨?_, (List.chain'_cons.mp hc.2).2⟩
        intro c hcm hsp
        exact hc.1 c (List.mem_cons_of_mem _ hcm) hsp
      by_cases hs : pySpace a
      · have ha : a = ' ' := hc.1 a (by simp) hs
        have hd : pySpace d = false := by
          by_contra hdd
          exact (List.chain'_cons.mp hc.2).1 ⟨hs, by simpa using hdd⟩
        simp only [collapseWS, hs, hd, Bool.false_eq_true, if_true, if_false]
        rw [ih htail, ha]
      · simp only [collapseWS, hs, Bool.false_eq_true, if_false]
        rw [ih htail]

theorem chain'_dropWhile {R : Char → Char → Prop} {p : Char → Bool} :
    ∀ (l : List Char), List.Chain' R l → List.Chain' R (l.dropWhile p) := by
  intro l
  induction l with
  | nil => intro h; simp
  | cons a t ih =>
    intro h
    by_cases hp : p a
    · rw [List.dropWhile_cons_of_pos hp]
      exact ih h.tail
    · rw [List.dropWhile_cons_of_neg hp]
      exact h

theorem collapsed_dropWhile {l : List Char} (h : Collapsed l) :
    Collapsed (l.dropWhile pySpace) :=
  ⟨fun c hc hsp => h.1 c ((List.dropWhile_suffix pySpace).subset hc) hsp,
   chain'_dropWhile l h.2⟩

theorem collapsed_reverse {l : List Char} (h : Collapsed l) : Collapsed l.reverse := by
  refine ⟨?_, ?_⟩
  · intro c hc hsp
    exact h.1 c (List.mem_reverse.mp hc) hsp
  · rw [List.chain'_reverse]
    refine h.2.imp ?_
    intro a b hab hf
    exact hab ⟨hf.2, hf.1⟩

theorem collapsed_pyStrip {l : List Char} (h : Collapsed l) : Collapsed (pyStrip l) := by
  unfold pyStrip
  exact collapsed_reverse (collapsed_dropWhile (collapsed_reverse (collapsed_dropWhile h)))

theorem dropWhile_head_not {p : Char → Bool} :
    ∀ (l : List Char) (c : Char), (l.dropWhile p).head? = some c → p c = false := by
  intro l
  induction l with
  | nil => intro c h; simp at h
  | cons a t ih =>
    intro c h
    by_cases hp : p a
    · rw [List.dropWhile_cons_of_pos hp] at h
      exact ih c h
    · rw [List.dropWhile_cons_of_neg hp] at h
      simp only [List.head?_cons, Option.some.injEq] at h
      rw [← h]
      simpa using hp

theorem dropWhile_eq_self_of_head {p : Char → Bool} {l : List Char}
    (h : ∀ c, l.head? = some c → p c = false) : l.dropWhile p = l := by
  cases l with
  | nil => rfl
  | cons a t => exact List.dropWhile_cons_of_neg (by simp [h a rfl])

theorem getLast?_suffix {l₁ l₂ : List Char} (h : l₁ <:+ l₂) (hne : l₁ ≠ []) :
    l₂.getLast? = l₁.getLast? := by
  rcases h with ⟨pre, rfl⟩
  exact List.getLast?_append_of_ne_nil pre hne

theorem pyStrip_head_not {l : List Char} {c : Char}
    (h : (pyStrip l).head? = some c) : pySpace c = false := by
  unfold pyStrip at h
  rw [List.head?_reverse] at h
  have hne : (((l.dropWhile pySpace).reverse).dropWhile pySpace) ≠ [] := by
    intro hnil
    rw [hnil] at h
    simp at h
  rw [← getLast?_suffix (List.dropWhile_suffix pySpace) hne] at h
  rw [List.getLast?_reverse] at h
  exact dropWhile_head_not _ c h

theorem pyStrip_getLast_not {l : List Char} {c : Char}
    (h : (pyStrip l).getLast? = some c) : pySpace c = false := by
  unfold pyStrip at h
  rw [List.getLast?_reverse] at h
  exact dropWhile_head_not _ c h

theorem pyStrip_eq_self {l : List Char}
    (hh : ∀ c, l.head? = some c → pySpace c = false)
    (hl : ∀ c, l.getLast? = some c → pySpace c = false) : pyStrip l = l := by
  unfold pyStrip
  rw [dropWhile_eq_self_of_head hh]
  rw [dropWhile_eq_self_of_head (fun c hc => hl c (by rwa [List.head?_reverse] at hc))]
  exact List.reverse_reverse l

theorem pyStrip_idem (l : List Char) : pyStrip (pyStrip l) = pyStrip l :=
  pyStrip_eq_self (fun _ h => pyStrip_head_not h) (fun _ h => pyStrip_getLast_not h)

theorem subAll_eq_of_none {ci : Bool} {r : RE} {s : List Char}
    (h : findMatch ci r s = none) : subAll ci r s = s := by
  unfold subAll
  rw [subAllAux, h]

theorem subAllChain_eq_of_none :
    ∀ (rs : List RE) (ci : Bool) (s : List Char),
      (∀ r ∈ rs, findMatch ci r s = none) → subAllChain ci rs s = s := by
  intro rs
  induction rs with
  | nil => intro ci s _; rfl
  | cons r t ih =>
    intro ci s h
    have h1 : subAll ci r s = s := subAll_eq_of_none (h r (by simp))
    calc subAllChain ci (r :: t) s = subAllChain ci t (subAll ci r s) := by
          simp [subAllChain]
      _ = subAllChain ci t s := by rw [h1]
      _ = s := ih ci s (fun r' hr' => h r' (List.mem_cons_of_mem _ hr'))

theorem mem_insertStable {α : Type} {le : α → α → Bool} {a b : α} :
    ∀ {l : List α}, a ∈ insertStable le b l ↔ a = b ∨ a ∈ l := by
  intro l
  induction l with
  | nil => simp [insertStable]
  | cons c t ih =>
    by_cases hle : le b c
    · simp [insertStable, hle]
    · simp only [insertStable, hle, Bool.false_eq_true, if_false, List.mem_cons, ih]
      tauto

theorem mem_pySort {α : Type} {le : α → α → Bool} {a : α} :
    ∀ {l : List α}, a ∈ pySort le l ↔ a ∈ l := by
  intro l
  induction l with
  | nil => simp [pySort]
  | cons c t ih =>
    simp only [pySort, mem_insertStable, ih, List.mem_cons]

theorem length_insertStable {α : Type} {le : α → α → Bool} {b : α} :
    ∀ {l : List α}, (insertStable le b l).length = l.length + 1 := by
  intro l
  induction l with
  | nil => rfl
  | cons c t ih =>
    by_cases hle : le b c
    · simp [insertStable, hle]
    · simp [insertStable, hle, ih]

theorem length_pySort {α : Type} {le : α → α → Bool} :
    ∀ {l : List α}, (pySort le l).length = l.length := by
  intro l
  induction l with
  | nil => rfl
  | cons c t ih => simp [pySort, length_insertStable, ih]

theorem filterPageContent_def (x : String) (p : Nat) :
    filterPageContent x p =
      String.mk (pyStrip (collapseWS (subAllChain true filterPatterns x.data))) := rfl

/-! ## Claim theorems -/

/-- C10: `_clean_text` — applied by the assembler to every emitted problem
statement, subproblem statement and solution body — HTML-escapes `<` and
`>` before its other steps, and pattern removal, whitespace collapsing and
stripping never reintroduce them; so no cleaned text contains a raw `<` or
`>`. -/
theorem c10_clean_text_no_raw_angle_brackets (text : String) :
    '<' ∉ (cleanText text).data ∧ '>' ∉ (cleanText text).data := by
  constructor <;> intro hmem
  · have h1 := mem_pyStrip (by simpa [cleanText] using hmem)
    have h2 := mem_stripLeadingNum h1
    rcases mem_collapseWS _ h2 with h3 | h3
    · exact (htmlEscapeChars_no_angle _).1 (mem_subAllChain _ _ _ h3)
    · exact absurd h3 (by decide)
  · have h1 := mem_pyStrip (by simpa [cleanText] using hmem)
    have h2 := mem_stripLeadingNum h1
    rcases mem_collapseWS _ h2 with h3 | h3
    · exact (htmlEscapeChars_no_angle _).2 (mem_subAllChain _ _ _ h3)
    · exact absurd h3 (by decide)

/-- C5 counterexample: the page filter is not idempotent.  Removing the
`Final Exam` boilerplate from `FiFinal Examnal Exam` splices the prefix
`Fi` onto the suffix `nal Exam`, recreating `Final Exam`, which only a
second pass removes. -/
theorem c5_filter_not_idempotent :
    ¬ (filterPageContent (filterPageContent ("FiFinal Examnal Exam") 1) 1 =
        filterPageContent ("FiFinal Examnal Exam") 1) := by
  have h1 : filterPageContent ("FiFinal Examnal Exam") 1 = ("Final Exam" : String) := by
    decide
  have h2 : filterPageContent ("Final Exam") 1 = ("" : String) := by
    decide
  rw [h1, h2]
  decide

/-- C5 amended: the filter is idempotent exactly on the inputs whose
filtered output contains no residual occurrence of a removal pattern: in
that case the second pass's pattern removal is the identity, and
whitespace collapsing plus stripping are idempotent on already normalized
text. -/
theorem c5_filter_idempotent_when_output_clean (x : String) (p q : Nat)
    (h : noFilterPatternMatches (filterPageContent x p) = true) :
    filterPageContent (filterPageContent x p) q = filterPageContent x p := by
  have hall : ∀ r ∈ filterPatterns,
      findMatch true r (filterPageContent x p).data = none := by
    intro r hr
    have := List.all_eq_true.mp h r hr
    exact Option.isNone_iff_eq_none.mp this
  rw [filterPageContent_def (filterPageContent x p) q,
    subAllChain_eq_of_none _ _ _ hall]
  have hdata : (filterPageContent x p).data =
      pyStrip (collapseWS (subAllChain true filterPatterns x.data)) := by
    rw [filterPageContent_def]
  rw [hdata]
  have hcoll : Collapsed (pyStrip (collapseWS (subAllChain true filterPatterns x.data))) :=
    collapsed_pyStrip (collapsed_collapseWS _)
  rw [collapseWS_of_collapsed _ hcoll, pyStrip_idem, filterPageContent_def x p]

/-- C5 witness: a concrete input on which the cleanliness hypothesis holds
and the filter is therefore idempotent. -/
theorem c5_filter_idempotent_witness :
    noFilterPatternMatches (filterPageContent ("hello world") 1) = true ∧
    filterPageContent (filterPageContent ("hello world") 1) 1 =
      filterPageContent ("hello world") 1 := by
  have hf : filterPageContent ("hello world") 1 = ("hello world" : String) := by decide
  have hn : noFilterPatternMatches ("hello world") = true := by decide
  have hc : noFilterPatternMatches (filterPageContent ("hello world") 1) = true := by
    rw [hf]; exact hn
  exact ⟨hc, c5_filter_idempotent_when_output_clean ("hello world") 1 1 hc⟩

/-- C1 (code bug): `_find_problem_images`'s page-co-location fallback
checks how often the image's page occurs in the requesting problem's own
page list, not how many problems live on that page, so an unassociated
image on a page shared by problems 1 and 2 (each appearing once, on page
2) is emitted under both problem records. -/
theorem c1_unassociated_image_listed_under_two_problems :
    findProblemImages 1 [2] [⟨"page_2_img_1.png", 2, none⟩] = ["page_2_img_1.png"] ∧
    findProblemImages 2 [2] [⟨"page_2_img_1.png", 2, none⟩] = ["page_2_img_1.png"] := by
  decide

/-- C2 counterexample: the candidate numbers 1, 2, 3, 4, 20 are accepted
by `_is_valid_problem_sequence` although one consecutive gap is 16 > 10 —
the 70%-reasonable-gaps test alone suffices for acceptance, so the
claimed conjunction with "no gap greater than 10" does not hold. -/
theorem c2_sequence_counterexample :
    isValidProblemSequence [1, 2, 3, 4, 20] = true ∧
    (seqGaps [1, 2, 3, 4, 20]).any (fun g => 10 < g) = true := by
  decide

/-- C2 amended: the sequence validator accepts exactly the sets described
by `specSequenceAccepted` — the 70% gap-ratio test, the at-most-one-large-
gap test and the no-gap-over-10 test are alternatives, not a conjunction;
singletons are always accepted and empty sets never. -/
theorem c2_sequence_validator_iff (nums : List Nat) :
    isValidProblemSequence nums = true ↔ specSequenceAccepted nums := by
  simp only [isValidProblemSequence, specSequenceAccepted]
  split_ifs with he h1 h2 h3
  · exact iff_of_false (by simp) (fun hc => hc.1 (List.isEmpty_iff.mp he))
  · refine iff_of_true rfl ⟨fun hn => he (by simp [hn]), Or.inl ?_⟩
    simpa using h1
  · exact iff_of_true rfl ⟨fun hn => he (by simp [hn]), Or.inr (Or.inl h2)⟩
  · refine iff_of_false (by simp) ?_
    rintro ⟨_, hlen | hratio | ⟨hlarge, hten⟩⟩
    · exact (by simpa using h1 : ¬ nums.length = 1) hlen
    · exact h2 hratio
    · rcases (by simpa [List.any_eq_true] using h3 :
          1 < ((seqGaps nums).filter (fun g => 3 < g)).length ∨
            ∃ g ∈ seqGaps nums, 10 < g) with h | ⟨g, hg, hgt⟩
      · omega
      · have := hten g hg
        omega
  · refine iff_of_true rfl ⟨fun hn => he (by simp [hn]), Or.inr (Or.inr ⟨?_, ?_⟩)⟩
    · have h3' : ¬ (1 < ((seqGaps nums).filter (fun g => 3 < g)).length ∨
          ∃ g ∈ seqGaps nums, 10 < g) := by
        intro hc
        exact h3 (by simpa [List.any_eq_true] using hc)
      omega
    · intro g hg
      by_contra hgt
      refine h3 ?_
      simp only [Bool.or_eq_true, decide_eq_true_eq, List.any_eq_true]
      exact Or.inr ⟨g, hg, by omega⟩

/-- The selection loop of the orphan reconciler finds only entries whose
page component precedes the orphan's page. -/
theorem lastProblemBefore_some :
    ∀ (l : List (Nat × Nat)) (p n : Nat),
      lastProblemBefore l p = some n → ∃ pg, (n, pg) ∈ l ∧ pg < p := by
  intro l
  induction l with
  | nil => intro p n h; simp [lastProblemBefore] at h
  | cons e t ih =>
    intro p n h
    unfold lastProblemBefore at h
    by_cases hlt : e.2 < p
    · rw [if_pos hlt] at h
      cases hrec : lastProblemBefore t p with
      | some m =>
        rw [hrec] at h
        simp only [Option.getD_some, Option.some.injEq] at h
        rcases ih p m hrec with ⟨pg, hm, hpg⟩
        exact ⟨pg, List.mem_cons_of_mem _ (h ▸ hm), hpg⟩
      | none =>
        rw [hrec] at h
        simp only [Option.getD_none, Option.some.injEq] at h
        refine ⟨e.2, ?_, hlt⟩
        rw [← h]
        simp
    · rw [if_neg hlt] at h
      exact absurd h (by simp)

/-- When every entry's page is at or past the orphan's page, the
selection loop breaks immediately. -/
theorem lastProblemBefore_none {l : List (Nat × Nat)} {p : Nat}
    (h : ∀ x ∈ l, ¬ x.2 < p) : lastProblemBefore l p = none := by
  cases l with
  | nil => rfl
  | cons e t =>
    unfold lastProblemBefore
    rw [if_neg (h e (List.mem_cons_self e t))]

/-- C3: reconciliation attaches a page's orphan content only to a problem
whose earliest recorded page strictly precedes the orphan's page, and when
no problem has an earlier first page the orphan is discarded (attached to
nothing). -/
theorem c3_orphan_attaches_only_to_earlier_problem
    (pbn : List (Nat × List Nat)) (orphans : List (Nat × String))
    (p : Nat) (t : Option Nat)
    (hmem : (p, t) ∈ associateOrphanTargets pbn orphans) :
    (∀ n, t = some n → ∃ pages, (n, pages) ∈ pbn ∧ minD pages < p) ∧
    ((∀ e ∈ pbn, p ≤ minD e.2) → t = none) := by
  simp only [associateOrphanTargets] at hmem
  rcases List.mem_map.mp hmem with ⟨o, _, heq⟩
  have hp : o.1 = p := congrArg Prod.fst heq
  have ht := congrArg Prod.snd heq
  simp only at ht
  rw [hp] at ht
  constructor
  · intro n hn
    rw [hn] at ht
    cases hlpb : lastProblemBefore
        (pySort (fun a b => a.2 ≤ b.2) (pbn.map (fun e => (e.1, minD e.2)))) p with
    | none =>
      rw [hlpb] at ht
      exact absurd (show (none : Option Nat) = some n from ht) (by simp)
    | some m =>
      rw [hlpb] at ht
      have ht' : (if (m == 0) = true then none else some m) = some n := ht
      by_cases hm0 : (m == 0) = true
      · rw [if_pos hm0] at ht'
        exact absurd ht' (by simp)
      · rw [if_neg hm0] at ht'
        have hmn : m = n := by simpa using ht'
        rcases lastProblemBefore_some _ p m hlpb with ⟨pg, hmem2, hpg⟩
        have hmem3 := mem_pySort.mp hmem2
        rcases List.mem_map.mp hmem3 with ⟨e, he, hpair⟩
        have he1 : e.1 = m := congrArg Prod.fst hpair
        have he2 : minD e.2 = pg := congrArg Prod.snd hpair
        refine ⟨e.2, ?_, by omega⟩
        have hne : (n, e.2) = e := by
          rw [← hmn, ← he1]
        rw [hne]
        exact he
  · intro hall
    have hnone : lastProblemBefore
        (pySort (fun a b => a.2 ≤ b.2) (pbn.map (fun e => (e.1, minD e.2)))) p = none := by
      apply lastProblemBefore_none
      intro x hx
      rcases List.mem_map.mp (mem_pySort.mp hx) with ⟨e, he, hpair⟩
      have hx2 : minD e.2 = x.2 := congrArg Prod.snd hpair
      have := hall e he
      omega
    rw [hnone] at ht
    exact ht.symm

/-- C3 witness: one problem first occurring on page 1 receives the orphan
content of page 2. -/
theorem c3_orphan_witness :
    ∃ pages, (1, pages) ∈ ([(1, [1])] : List (Nat × List Nat)) ∧ minD pages < 2 :=
  (c3_orphan_attaches_only_to_earlier_problem [(1, [1])] [(2, "c")] 2 (some 1)
    (by decide)).1 1 rfl

/-- C4 counterexample: on the Scenario C page-2 filtered text the leading
fragment is NOT recorded as orphan content — the first-problem scan cuts
at the `2.` inside `x^2.` and the remaining 16 characters fall below the
20-character minimum, so extraction returns the empty string instead of
attaching anything to problem 1. -/
theorem c4_scenario_c_counterexample :
    extractOrphanedContent ("which equals 3x^2. 2. Solve for x: 2x=10.") 2 = "" := by
  decide

/-- C4 amended: on the Scenario C input no orphan entry is stored for page
2 (so problem 1's statement is not extended and problem 2 is unaffected);
the first-problem scan truncates the fragment at index 16, the position of
the `2. ` match inside `x^2. `. -/
theorem c4_scenario_c_amended :
    orphanRecordForPage 2 ("which equals 3x^2. 2. Solve for x: 2x=10.") = none ∧
    firstProblemPos ("which equals 3x^2. 2. Solve for x: 2x=10.".data) = 16 := by
  decide

/-- C6: a run of four or more accepted subproblem markers whose ordered
keys are exactly the alphabet run from `a`, or whose letter-distance span
is at least 3, is classified as multiple-choice noise and the segmenter
returns an empty subproblem map. -/
theorem c6_multiple_choice_run_never_emitted (content : String)
    (markers : List SubMarker) (h4 : 4 ≤ markers.length)
    (hsig : sortedKeys markers = alphaRun markers.length ∨
      3 ≤ keySpan (sortedKeys markers)) :
    extractSubproblemsFromMarkers content markers = [] := by
  unfold extractSubproblemsFromMarkers
  have hlen : (pySort (fun a b => a.start ≤ b.start) markers).length =
      markers.length := length_pySort
  have hmc : isMultipleChoiceSequence
      (pySort (fun a b => a.start ≤ b.start) markers) = true := by
    unfold isMultipleChoiceSequence
    rw [if_neg (by omega)]
    have hkeys : (pySort (fun a b => a.start ≤ b.start) markers).map
        (fun m => m.key) = sortedKeys markers := rfl
    have hklen : ((pySort (fun a b => a.start ≤ b.start) markers).map
        (fun m => m.key)).length = markers.length := by
      rw [List.length_map, hlen]
    by_cases hb : ((pySort (fun a b => a.start ≤ b.start) markers).map
        (fun m => m.key)) ==
        (List.range ((pySort (fun a b => a.start ≤ b.start) markers).map
          (fun m => m.key)).length).map (fun i => Char.ofNat (97 + i))
    · rw [if_pos hb]
    · rw [if_neg hb]
      rcases hsig with hseq | hspan
      · exfalso
        apply hb
        rw [beq_iff_eq, hkeys]
        have hsl : (sortedKeys markers).length = markers.length := by
          unfold sortedKeys
          rw [List.length_map, length_pySort]
        rw [hsl, hseq]
        rfl
      · rw [if_pos (by omega)]
        rw [if_pos]
        simp only [Bool.and_eq_true, decide_eq_true_eq]
        exact ⟨by rwa [hkeys], by omega⟩
  rw [if_pos hmc]

/-- C6 witness: the marker run `a) b) c) d)` yields no subproblems. -/
theorem c6_multiple_choice_witness :
    extractSubproblemsFromMarkers
      ("3. Evaluate. a) one b) two c) three d) four")
      [⟨'a', 13, 15, "a)", "a)"⟩, ⟨'b', 20, 22, "b)", "a)"⟩,
       ⟨'c', 27, 29, "c)", "a)"⟩, ⟨'d', 36, 38, "d)", "a)"⟩] = [] :=
  c6_multiple_choice_run_never_emitted _ _ (by decide) (Or.inl (by decide))

/-- C7 counterexample: an image in the top band (top edge 10 of a
792-point page) and short (height 20, under 8% of the page) but
left-of-center (center 100 of a 612-point page) is NOT classified as a
header — the code requires shortness AND right-of-center together, not as
alternatives. -/
theorem c7_top_short_left_image_not_header :
    isHeaderRect 612 792 ⟨50, 10, 150, 30⟩ = false ∧
    (10 : ℚ) < 792 * (10 / 100) ∧ (30 : ℚ) - 10 < 792 * (8 / 100) := by
  refine ⟨by norm_num [isHeaderRect], by norm_num, by norm_num⟩

/-- C7 amended: a placement rectangle is classified as a header iff it is
in the top 10% band AND short (under 8% of page height) AND
right-of-center, or in the top band AND right-of-center AND very small
(height under 40, width under 120) AND wide-rectangular (aspect ratio
strictly between 2 and 4). -/
theorem c7_header_image_iff (pw ph : ℚ) (r : Rect) :
    isHeaderRect pw ph r = true ↔
      (r.y0 < ph * (10 / 100) ∧ r.y1 - r.y0 < ph * (8 / 100) ∧
        pw * (5 / 10) < (r.x0 + r.x1) / 2) ∨
      (r.y0 < ph * (10 / 100) ∧ pw * (5 / 10) < (r.x0 + r.x1) / 2 ∧
        r.y1 - r.y0 < 40 ∧ r.x1 - r.x0 < 120 ∧ 0 < r.y1 - r.y0 ∧
        2 < (r.x1 - r.x0) / (r.y1 - r.y0) ∧ (r.x1 - r.x0) / (r.y1 - r.y0) < 4) := by
  simp only [isHeaderRect]
  by_cases hpos : (0 : ℚ) < r.y1 - r.y0
  · rw [if_pos hpos]
    constructor
    · intro h
      split_ifs at h with h1 h2
      · simp only [Bool.and_eq_true, decide_eq_true_eq] at h1
        exact Or.inl ⟨h1.1.1, h1.1.2, h1.2⟩
      · simp only [Bool.and_eq_true, decide_eq_true_eq] at h2
        exact Or.inr ⟨h2.1.1.1, h2.2, h2.1.2.1, h2.1.2.2, hpos,
          h2.1.1.2.1, h2.1.1.2.2⟩
    · rintro (⟨ht, hs, hr⟩ | ⟨ht, hr, h40, h120, _, h2a, h4a⟩)
      · split_ifs with h1 h2
        · rfl
        · rfl
        · exfalso
          apply h1
          simp only [Bool.and_eq_true, decide_eq_true_eq]
          exact ⟨⟨ht, hs⟩, hr⟩
      · split_ifs with h1 h2
        · rfl
        · rfl
        · exfalso
          apply h2
          simp only [Bool.and_eq_true, decide_eq_true_eq]
          exact ⟨⟨⟨ht, h2a, h4a⟩, h40, h120⟩, hr⟩
  · rw [if_neg hpos]
    constructor
    · intro h
      split_ifs at h with h1 h2
      · simp only [Bool.and_eq_true, decide_eq_true_eq] at h1
        exact Or.inl ⟨h1.1.1, h1.1.2, h1.2⟩
      · simp only [Bool.and_eq_true, decide_eq_true_eq] at h2
        exact absurd h2.1.1.2.1 (by norm_num)
    · rintro (⟨ht, hs, hr⟩ | ⟨_, _, _, _, hp, _, _⟩)
      · split_ifs with h1 h2
        · rfl
        · rfl
        · exfalso
          apply h1
          simp only [Bool.and_eq_true, decide_eq_true_eq]
          exact ⟨⟨ht, hs⟩, hr⟩
      · exact absurd hp hpos

/-- C8 counterexample: the round power of ten 10 is accepted by the
problem-number validity check. -/
theorem c8_power_of_ten_accepted : isValidProblemNumber (10 ^ 1) = true := by decide

/-- C8 amended: the validity check accepts exactly 1 ≤ n ≤ 50; the
explicit false-positive set {0, 100, 1000, 10000} lies entirely outside
that range, so 0 and the powers of ten from 100 up are rejected, but 1
and 10 are accepted. -/
theorem c8_valid_number_iff (n : Nat) :
    isValidProblemNumber n = true ↔ 1 ≤ n ∧ n ≤ 50 := by
  unfold isValidProblemNumber
  by_cases h : (n == 0 || n == 100 || n == 1000 || n == 10000) = true
  · rw [if_pos h]
    simp only [Bool.or_eq_true, beq_iff_eq] at h
    constructor
    · intro hf; exact absurd hf (by simp)
    · rintro ⟨h1, h2⟩
      rcases h with (h | h) | h | h <;> omega
  · rw [if_neg h]
    simp only [Bool.and_eq_true, decide_eq_true_eq]

/-- C9 (code bug): the generator writes the subproblem key as the LAST
filename component (`p6_1_b.png`) while the distributor's convention
decoder expects it in the MIDDLE (`p6_b_1.png`); the round trip is broken,
and the generated name falls through to the keyword heuristics (here
yielding no subproblem at all). -/
theorem c9_filename_roundtrip_broken :
    generateProblemBasedFilename (some 6) 1 4 (some 'b') = "p6_1_b.png" ∧
    filenameSubproblemKey ("p6_1_b.png") = none ∧
    filenameSubproblemKey ("p6_b_1.png") = some 'b' ∧
    determineImageSubproblemAssociation ("p6_1_b.png") ("Find the area.")
      [('b', ⟨"Compute the integral of f.", none, none, []⟩)] = none := by
  decide

end PdfConverter
